import Mathlib

/-!
# Verification of the haemocytometer RBC-counting pipeline

Shallow embedding of the image-analysis pipeline found in `rbccount.py`
(`count_rbc_with_grid`), its Flask twin in `app.py`, and the circle-detection
analyzer in `gsp.py` (`analyze_image`).

The OpenCV perceptual primitives (blurs, Canny, Hough transforms, contour
extraction, drawing) are modelled as an oracle structure `CV`; the repository
code under verification is the glue composing them.  Python `float`
arithmetic on the literals `0.1` and `0.01` is modelled exactly: a binary64
value is the rational produced by `roundDouble`, round-to-nearest on the
53-bit grid of the value's binade.  Python `int()` truncation is `pyInt`.
-/

namespace RBC

/-- Round-to-nearest (ties up) on the 53-bit binary64 grid of `x`'s binade:
the IEEE double closest to the real number `x` (for normal, non-tie `x`).
Mantissa grid spacing in the binade of `x` is `2 ^ (Int.log 2 x - 52)`. -/
def roundDouble (x : ℚ) : ℚ :=
  (round (x * 2 ^ ((52 : ℤ) - Int.log 2 x)) : ℚ) * 2 ^ (Int.log 2 x - 52)

/-- Python `int()`: truncation of a float toward zero. -/
def pyInt (x : ℚ) : ℤ :=
  if 0 ≤ x then ⌊x⌋ else -⌊-x⌋

/-! ## Haemocytometer constants (`rbccount.py` lines 23-30, `app.py` 30-35)

`DILUTION_FACTOR = 200` (exact in binary64), `CHAMBER_VOLUME_uL = 0.1`
(a float literal: the binary64 nearest to 1/10), and
`CONVERSION_FACTOR = DILUTION_FACTOR / CHAMBER_VOLUME_uL`
(one correctly rounded float division). -/

def DILUTION_FACTOR : ℚ := 200

def CHAMBER_VOLUME_uL : ℚ := roundDouble (1 / 10)

def CONVERSION_FACTOR : ℚ := roundDouble (DILUTION_FACTOR / CHAMBER_VOLUME_uL)

def LOW_THRESHOLD : ℤ := 4000000

def HIGH_THRESHOLD : ℤ := 6000000

/-- The float literal `0.01` of `gsp.py` line 62: the binary64 nearest 1/100. -/
def FL_001 : ℚ := roundDouble (1 / 100)

/-! ## Data model

Rasters are pixel grids; a color image is a grid of BGR triples, grayscale
images and masks are grids of intensities.  Contours are point lists in
`(x, y)` integer coordinates, line segments are `(x1, y1, x2, y2)`. -/

/-- A decoded color raster (`cv2.imread` result). -/
structure Img where
  data : List (List (ℕ × ℕ × ℕ))
deriving DecidableEq

/-- A grayscale raster or binary mask. -/
abbrev Gray := List (List ℕ)

/-- A contour: ordered list of 2-D integer points. -/
abbrev Contour := List (ℤ × ℤ)

/-- A detected line segment `(x1, y1, x2, y2)`. -/
abbrev Seg := ℤ × ℤ × ℤ × ℤ

/-- Oracle for the OpenCV primitives called by `count_rbc_with_grid`.
The repository code under verification is the glue composing these. -/
structure CV where
  imread : String → Option Img
  cvtColor : Img → Gray
  gaussianBlur : Gray → Gray
  canny : Gray → Gray
  houghLinesP : Gray → Option (List Seg)
  line : Gray → Seg → Gray
  findContours : Gray → List Contour
  contourArea : Contour → ℚ
  boundingRect : Contour → ℤ × ℤ × ℤ × ℤ
  crop : Gray → ℤ × ℤ × ℤ × ℤ → Gray
  medianBlur : Gray → Gray
  threshold127Inv : Gray → Gray
  rectangle : Img → ℤ × ℤ → ℤ × ℤ → Img
  drawContours : Img → Contour → Except String Img

/-- Model of `np.zeros_like(gray)`: an all-zero mask of the same shape. -/
def zerosLike (g : Gray) : Gray :=
  g.map (fun row => row.map (fun _ => 0))

/-- Grid mask of `rbccount.py` lines 43-48: start from an all-zero mask; when
`HoughLinesP` found lines, rasterize each onto the mask with `cv2.line`. -/
def gridMaskOf (cv : CV) (gray : Gray) (lines : Option (List Seg)) : Gray :=
  match lines with
  | none => zerosLike gray
  | some ls => ls.foldl cv.line (zerosLike gray)

/-- Python `max(..., key=...)` over a list already started at `best`:
a later element replaces the current one only when strictly greater, so the
first-encountered maximum wins. -/
def pyMaxAux (key : Contour → ℚ) : Contour → List Contour → Contour
  | best, [] => best
  | best, c :: cs => pyMaxAux key (if key best < key c then c else best) cs

/-- Python `max(contours, key=cv2.contourArea)` (`rbccount.py` line 52):
raises `ValueError` on an empty sequence. -/
def pyMax (key : Contour → ℚ) : List Contour → Except String Contour
  | [] => .error "max() arg is an empty sequence"
  | c :: cs => .ok (pyMaxAux key c cs)

/-- Region-Locator composite: bounding rectangle of the largest-area grid
component (`rbccount.py` lines 52-53). -/
def largestContourRect (cv : CV) (contours : List Contour) :
    Except String (ℤ × ℤ × ℤ × ℤ) :=
  Except.map cv.boundingRect (pyMax cv.contourArea contours)

/-- Minimum blob area, `rbccount.py` line 63: `min_area = 50`. -/
def MIN_AREA : ℚ := 50

/-- Blob Filter (`rbccount.py` line 64): keep contours with
`contourArea(cnt) > min_area`. -/
def filterContours (area : Contour → ℚ) (minArea : ℚ)
    (cs : List Contour) : List Contour :=
  cs.filter (fun cnt => decide (minArea < area cnt))

/-- Concentration Estimator (`rbccount.py` line 67):
`rbc_per_uL = raw_rbc_count * int(CONVERSION_FACTOR)`. -/
def rbc_per_uL_of (raw_rbc_count : ℕ) : ℤ :=
  (raw_rbc_count : ℤ) * pyInt CONVERSION_FACTOR

/-- Classification (`rbccount.py` lines 70-75). -/
def interpret (rbc_per_uL : ℤ) : String :=
  if rbc_per_uL < LOW_THRESHOLD then "LOW RBC COUNT (Anemia)"
  else if HIGH_THRESHOLD < rbc_per_uL then "HIGH RBC COUNT (Polycythemia)"
  else "NORMAL RBC COUNT"

/-- Translation `cnt + [x, y]` (`rbccount.py` line 80): numpy broadcast adds the ROI
offset to every contour point. -/
def shiftContour (cnt : Contour) (x y : ℤ) : Contour :=
  cnt.map (fun p => (p.1 + x, p.2 + y))

/-- Annotator (`rbccount.py` lines 77-82), in state-passing form: the draw
target starts as a value copy of `image` (`image.copy()`), the ROI rectangle
and each shifted accepted contour are drawn onto it, and the pair
`(final output_img, post-invocation content of the image buffer)` is
returned.  No drawing call ever targets the `image` buffer. -/
def annotate (cv : CV) (image : Img) (x y w h : ℤ)
    (filtered : List Contour) : Except String (Img × Img) :=
  let output0 := image
  let output1 := cv.rectangle output0 (x, y) (x + w, y + h)
  Except.map (fun out => (out, image))
    (filtered.foldlM (fun acc cnt => cv.drawContours acc (shiftContour cnt x y)) output1)

/-- Intermediate artifacts after the numeric stages
(`rbccount.py` lines 34-75). -/
structure NumericOut where
  image : Img
  x : ℤ
  y : ℤ
  w : ℤ
  h : ℤ
  filtered : List Contour
  raw_count : ℕ
  rbc_per_uL : ℤ
  interpretation : String
deriving DecidableEq

/-- Numeric stages of `count_rbc_with_grid` (`rbccount.py` lines 34-75):
decode, grayscale, grid detection, ROI, segmentation, filtering, counting,
concentration, classification.  `cv2.imread` yields `None` on decode
failure and the subsequent `cv2.cvtColor(None, ...)` raises. -/
def numericStages (cv : CV) (image_path : String) : Except String NumericOut :=
  match cv.imread image_path with
  | none => .error "cvtColor: src is not a numpy array"
  | some image =>
    let gray := cv.cvtColor image
    let blur := cv.gaussianBlur gray
    let edges := cv.canny blur
    let lines := cv.houghLinesP edges
    let grid_mask := gridMaskOf cv gray lines
    let contours := cv.findContours grid_mask
    match pyMax cv.contourArea contours with
    | .error e => .error e
    | .ok largest_contour =>
      let xywh := cv.boundingRect largest_contour
      let x := xywh.1
      let y := xywh.2.1
      let w := xywh.2.2.1
      let h := xywh.2.2.2
      let roi := cv.crop gray (x, y, w, h)
      let blurred_roi := cv.medianBlur roi
      let thresh := cv.threshold127Inv blurred_roi
      let contours_rbc := cv.findContours thresh
      let filtered_contours := filterContours cv.contourArea MIN_AREA contours_rbc
      let raw_rbc_count := filtered_contours.length
      let rbc_per_uL := rbc_per_uL_of raw_rbc_count
      let interpretation := interpret rbc_per_uL
      .ok ⟨image, x, y, w, h, filtered_contours, raw_rbc_count, rbc_per_uL, interpretation⟩

/-- The analysis result returned by `count_rbc_with_grid`
(`rbccount.py` line 84). -/
structure RBCResult where
  raw_count : ℕ
  rbc_per_uL : ℤ
  interpretation : String
  output_img : Img
deriving DecidableEq

/-- The function `count_rbc_with_grid` (`rbccount.py` lines 33-84): the numeric stages
followed by the annotation block; any raised error propagates (there is no
try/except inside the function). -/
def count_rbc_with_grid (cv : CV) (image_path : String) :
    Except String RBCResult :=
  match numericStages cv image_path with
  | .error e => .error e
  | .ok o =>
    match annotate cv o.image o.x o.y o.w o.h o.filtered with
    | .error e => .error e
    | .ok (out, _imageAfter) => .ok ⟨o.raw_count, o.rbc_per_uL, o.interpretation, out⟩

/-! ## The circle-detection analyzer of `gsp.py` (`analyze_image`) -/

/-- A detected circle `(x, y, r)` after `np.uint16(np.around(circles))`. -/
abbrev Circle := ℕ × ℕ × ℕ

/-- Oracle for the OpenCV primitives called by `gsp.py`'s `analyze_image`. -/
structure GspCV where
  imread : String → Option Img
  cvtColor : Img → Gray
  medianBlur : Gray → Gray
  houghCircles : Gray → Option (List Circle)
  circleGreen : Img → Circle → Img
  circleRed : Img → Circle → Img

/-- Reference thresholds of `gsp.py` lines 27-28. -/
def LOW_RBC : ℤ := 4000000

def HIGH_RBC : ℤ := 6000000

/-- WBC estimate (`gsp.py` line 62): `wbc_estimate = int(rbc_count * 0.01)`,
one binary64 multiplication then `int()` truncation. -/
def wbc_estimate_of (rbc_count : ℕ) : ℤ :=
  pyInt (roundDouble ((rbc_count : ℚ) * FL_001))

/-- Loop body of `gsp.py` lines 50-58: draw each circle in green and, when
the radius is abnormal (`r < 6 or r > 14`), count it and redraw in red. -/
def gspLoopStep (cv : GspCV) (st : ℕ × Img) (c : Circle) : ℕ × Img :=
  let img1 := cv.circleGreen st.2 c
  if c.2.2 < 6 ∨ 14 < c.2.2 then (st.1 + 1, cv.circleRed img1 c) else (st.1, img1)

/-- Classification of `gsp.py` lines 64-71, using the literal factor 2000. -/
def gspInterpret (rbc_count : ℕ) : String :=
  let estimated_rbc_ul : ℤ := (rbc_count : ℤ) * 2000
  if estimated_rbc_ul < LOW_RBC then "LOW RBC COUNT (Possible Anemia)"
  else if HIGH_RBC < estimated_rbc_ul then "HIGH RBC COUNT (Possible Polycythemia)"
  else "NORMAL RBC COUNT"

/-- Result record of `gsp.py`'s `analyze_image` (line 73). -/
structure GspResult where
  rbc_count : ℕ
  wbc_estimate : ℤ
  abnormal_count : ℕ
  interpretation : String
  output_img : Img
deriving DecidableEq

/-- The function `analyze_image` of `gsp.py` lines 34-73: decode, grayscale, median blur,
`HoughCircles`; when circles were found, count them and draw overlays;
WBC estimate and interpretation are derived from `rbc_count` alone. -/
def gsp_analyze (cv : GspCV) (image_path : String) : Except String GspResult :=
  match cv.imread image_path with
  | none => .error "cvtColor: src is not a numpy array"
  | some image =>
    let gray := cv.cvtColor image
    let blurred := cv.medianBlur gray
    let circles := cv.houghCircles blurred
    let output0 := image
    match circles with
    | none =>
      .ok ⟨0, wbc_estimate_of 0, 0, gspInterpret 0, output0⟩
    | some cs =>
      let rbc_count := cs.length
      let st := cs.foldl (gspLoopStep cv) (0, output0)
      .ok ⟨rbc_count, wbc_estimate_of rbc_count, st.1, gspInterpret rbc_count, st.2⟩

/-! ## Concrete oracle instances for witnesses and counterexamples -/

/-- A 1-pixel color image. -/
def img0 : Img := ⟨[[(0, 0, 0)]]⟩

/-- A one-point contour. -/
def cnt0 : Contour := [((0 : ℤ), (0 : ℤ))]

/-- Oracle for an image with no linear structure: `HoughLinesP` finds no
lines and an all-zero mask has no connected components. -/
def cvNoLines : CV where
  imread := fun _ => some img0
  cvtColor := fun _ => [[0]]
  gaussianBlur := id
  canny := id
  houghLinesP := fun _ => none
  line := fun m _ => m
  findContours := fun _ => []
  contourArea := fun _ => 0
  boundingRect := fun _ => (0, 0, 0, 0)
  crop := fun g _ => g
  medianBlur := id
  threshold127Inv := id
  rectangle := fun i _ _ => i
  drawContours := fun i _ => .ok i

/-- Oracle whose numeric stages succeed (one accepted blob of area 100) but
whose contour drawing raises. -/
def cvDrawFail : CV where
  imread := fun _ => some img0
  cvtColor := fun _ => [[0]]
  gaussianBlur := id
  canny := id
  houghLinesP := fun _ => some [(0, 0, 1, 1)]
  line := fun m _ => m
  findContours := fun _ => [cnt0]
  contourArea := fun _ => 100
  boundingRect := fun _ => (0, 0, 1, 1)
  crop := fun g _ => g
  medianBlur := id
  threshold127Inv := id
  rectangle := fun i _ _ => i
  drawContours := fun _ _ => .error "drawContours: bad contour"

/-- The numeric artifacts produced by `cvDrawFail` before annotation. -/
def numOutDF : NumericOut :=
  ⟨img0, 0, 0, 1, 1, [cnt0], 1, rbc_per_uL_of 1, interpret (rbc_per_uL_of 1)⟩

/-- Oracle whose decoder always fails. -/
def cvDecodeFail : CV where
  imread := fun _ => none
  cvtColor := fun _ => [[0]]
  gaussianBlur := id
  canny := id
  houghLinesP := fun _ => none
  line := fun m _ => m
  findContours := fun _ => []
  contourArea := fun _ => 0
  boundingRect := fun _ => (0, 0, 0, 0)
  crop := fun g _ => g
  medianBlur := id
  threshold127Inv := id
  rectangle := fun i _ _ => i
  drawContours := fun i _ => .ok i

/-- Three one-point contours used as distinguishable blobs. -/
def cntA : Contour := [((1 : ℤ), (0 : ℤ))]

def cntB : Contour := [((2 : ℤ), (0 : ℤ))]

def cntC : Contour := [((3 : ℤ), (0 : ℤ))]

/-- Oracle with two blobs of areas 25 and 400 (the spec's synthetic Blob
Filter test). -/
def cvTwoBlobs : CV where
  imread := fun _ => some img0
  cvtColor := fun _ => [[0]]
  gaussianBlur := id
  canny := id
  houghLinesP := fun _ => some [(0, 0, 1, 1)]
  line := fun m _ => m
  findContours := fun _ => [cntA, cntB]
  contourArea := fun c => if c = cntA then 25 else 400
  boundingRect := fun _ => (0, 0, 1, 1)
  crop := fun g _ => g
  medianBlur := id
  threshold127Inv := id
  rectangle := fun i _ _ => i
  drawContours := fun i _ => .ok i

/-- Oracle with a tie between the second and third grid component
(areas 3, 9, 9): the first-encountered maximum must win. -/
def cvTie : CV where
  imread := fun _ => some img0
  cvtColor := fun _ => [[0]]
  gaussianBlur := id
  canny := id
  houghLinesP := fun _ => some [(0, 0, 1, 1)]
  line := fun m _ => m
  findContours := fun _ => [cntA, cntB, cntC]
  contourArea := fun c => if c = cntA then 3 else 9
  boundingRect := fun c => (c.headI.1, c.headI.2, 1, 1)
  crop := fun g _ => g
  medianBlur := id
  threshold127Inv := id
  rectangle := fun i _ _ => i
  drawContours := fun i _ => .ok i

/-- Oracle for `gsp.py` detecting 150 normal circles. -/
def gspCirc : GspCV where
  imread := fun _ => some img0
  cvtColor := fun _ => [[0]]
  medianBlur := id
  houghCircles := fun _ => some (List.replicate 150 (20, 20, 10))
  circleGreen := fun i _ => i
  circleRed := fun i _ => i

/-- The result produced by `gspCirc`. -/
def gspRes150 : GspResult :=
  ⟨150, wbc_estimate_of 150, 0, gspInterpret 150, img0⟩

theorem pyInt_of_nonneg {x : ℚ} (hx : 0 ≤ x) : pyInt x = ⌊x⌋ := by
  simp [pyInt, hx]

/-- Pin down `Int.log 2 x` from an explicit binade bracket. -/
theorem int_log_eq_of {x : ℚ} {e : ℤ} (hx : 0 < x)
    (h1 : (2 : ℚ) ^ e ≤ x) (h2 : x < (2 : ℚ) ^ (e + 1)) :
    Int.log 2 x = e := by
  have hb : 1 < 2 := by norm_num
  have hle : e ≤ Int.log 2 x := by
    have := (Int.zpow_le_iff_le_log hb hx (x := e)).1 (by exact_mod_cast h1)
    exact this
  have hlt : Int.log 2 x < e + 1 := by
    have := (Int.lt_zpow_iff_log_lt hb hx (x := e + 1)).1 (by exact_mod_cast h2)
    exact this
  omega

/-- Unfolding helper: once the binade exponent and the rounded mantissa are
known, `roundDouble` is an explicit rational. -/
theorem roundDouble_eq {x : ℚ} {e m : ℤ} (he : Int.log 2 x = e)
    (hm : round (x * 2 ^ ((52 : ℤ) - e)) = m) :
    roundDouble x = (m : ℚ) * 2 ^ (e - 52) := by
  unfold roundDouble
  rw [he, hm]

theorem round_mono_rat {a b : ℚ} (h : a ≤ b) : round a ≤ round b := by
  rw [round_eq, round_eq]
  exact Int.floor_mono (by linarith)

/-- Half-ulp bracket: rounding a positive real to its binade grid moves it by
at most `x * 2⁻⁵²` (generous: the true bound is half that). -/
theorem abs_roundDouble_sub_le {x : ℚ} (hx : 0 < x) :
    |roundDouble x - x| ≤ x * 2 ^ (-(52 : ℤ)) := by
  set e := Int.log 2 x with he
  have hsp : (0 : ℚ) < 2 ^ ((52 : ℤ) - e) := zpow_pos (by norm_num) _
  have hsp' : (0 : ℚ) < 2 ^ (e - 52) := zpow_pos (by norm_num) _
  have hinv : (2 : ℚ) ^ ((52 : ℤ) - e) * 2 ^ (e - 52) = 1 := by
    rw [← zpow_add₀ (by norm_num : (2 : ℚ) ≠ 0)]
    norm_num
  have hround : |(round (x * 2 ^ ((52 : ℤ) - e)) : ℚ) - x * 2 ^ ((52 : ℤ) - e)| ≤ 1 / 2 := by
    have := abs_sub_round (α := ℚ) (x * 2 ^ ((52 : ℤ) - e))
    rwa [abs_sub_comm] at this
  have hx2 : roundDouble x - x
      = ((round (x * 2 ^ ((52 : ℤ) - e)) : ℚ) - x * 2 ^ ((52 : ℤ) - e)) * 2 ^ (e - 52) := by
    unfold roundDouble
    rw [← he]
    rw [sub_mul, mul_assoc, hinv, mul_one]
  rw [hx2, abs_mul, abs_of_pos hsp']
  have hbound : |(round (x * 2 ^ ((52 : ℤ) - e)) : ℚ) - x * 2 ^ ((52 : ℤ) - e)| * 2 ^ (e - 52)
      ≤ (1 / 2) * 2 ^ (e - 52) := by
    exact mul_le_mul_of_nonneg_right hround (le_of_lt hsp')
  refine hbound.trans ?_
  -- (1/2) * 2^(e-52) = 2^(e-53) ≤ x * 2^(-53) * 2 ≤ x * 2^(-52)
  have hlogle : (2 : ℚ) ^ e ≤ x := Int.zpow_log_le_self (by norm_num) hx
  have : (1 / 2 : ℚ) * 2 ^ (e - 52) = 2 ^ e * 2 ^ (-(53 : ℤ)) := by
    rw [← zpow_add₀ (by norm_num : (2 : ℚ) ≠ 0)]
    rw [show e + -(53 : ℤ) = e - 53 by ring]
    rw [show (1 / 2 : ℚ) = 2 ^ (-(1 : ℤ)) by norm_num]
    rw [← zpow_add₀ (by norm_num : (2 : ℚ) ≠ 0)]
    ring_nf
  rw [this]
  have h1 : (2 : ℚ) ^ e * 2 ^ (-(53 : ℤ)) ≤ x * 2 ^ (-(53 : ℤ)) :=
    mul_le_mul_of_nonneg_right hlogle (le_of_lt (zpow_pos (by norm_num) _))
  refine h1.trans ?_
  have h2 : (2 : ℚ) ^ (-(53 : ℤ)) ≤ 2 ^ (-(52 : ℤ)) :=
    zpow_le_zpow_right₀ (by norm_num) (by norm_num)
  exact mul_le_mul_of_nonneg_left h2 (le_of_lt hx)

/-- A natural number below a positive value with small binade exponent is
also below the rounded value: naturals are representable on grids with
spacing `≤ 1`, so rounding cannot cross below them. -/
theorem nat_le_roundDouble {q : ℕ} {x : ℚ}
    (he : Int.log 2 x ≤ 52) (hq : (q : ℚ) ≤ x) : (q : ℚ) ≤ roundDouble x := by
  set e := Int.log 2 x with hedef
  obtain ⟨k, hk⟩ : ∃ k : ℕ, (52 : ℤ) - e = k := ⟨((52 : ℤ) - e).toNat, by omega⟩
  have hgrid : ((q * 2 ^ k : ℕ) : ℚ) ≤ x * 2 ^ ((52 : ℤ) - e) := by
    rw [hk]
    push_cast
    have : ((2 : ℚ) ^ (k : ℤ)) = 2 ^ k := by
      exact_mod_cast zpow_natCast (2 : ℚ) k
    rw [this]
    exact mul_le_mul_of_nonneg_right hq (by positivity)
  have hr : ((q * 2 ^ k : ℕ) : ℤ) ≤ round (x * 2 ^ ((52 : ℤ) - e)) := by
    have h1 := round_mono_rat hgrid
    rwa [round_natCast] at h1
  have hsp' : (0 : ℚ) < 2 ^ (e - 52) := zpow_pos (by norm_num) _
  unfold roundDouble
  rw [← hedef]
  have hmul : ((q * 2 ^ k : ℕ) : ℚ) * 2 ^ (e - 52) ≤
      (round (x * 2 ^ ((52 : ℤ) - e)) : ℚ) * 2 ^ (e - 52) := by
    exact mul_le_mul_of_nonneg_right (by exact_mod_cast hr) (le_of_lt hsp')
  refine le_trans (le_of_eq ?_) hmul
  push_cast
  have h2 : ((2 : ℚ) ^ (k : ℤ)) = 2 ^ k := by exact_mod_cast zpow_natCast (2 : ℚ) k
  rw [← h2, mul_assoc, ← zpow_add₀ (by norm_num : (2 : ℚ) ≠ 0)]
  rw [show (k : ℤ) + (e - 52) = 0 by omega]
  norm_num

theorem chamber_volume_eq :
    CHAMBER_VOLUME_uL = 3602879701896397 / 2 ^ 55 := by
  have hlog : Int.log 2 ((1 : ℚ) / 10) = -4 := by
    refine int_log_eq_of (by norm_num) ?_ ?_
    · show (2 : ℚ) ^ (-4 : ℤ) ≤ 1 / 10
      rw [show (-4 : ℤ) = -(4 : ℕ) by norm_num, zpow_neg, zpow_natCast]
      norm_num
    · show (1 : ℚ) / 10 < (2 : ℚ) ^ ((-4 : ℤ) + 1)
      rw [show (-4 : ℤ) + 1 = -(3 : ℕ) by norm_num, zpow_neg, zpow_natCast]
      norm_num
  have hm : round (((1 : ℚ) / 10) * 2 ^ ((52 : ℤ) - (-4))) = 7205759403792794 := by
    rw [show (52 : ℤ) - (-4) = (56 : ℕ) by norm_num, zpow_natCast, round_eq]
    rw [Int.floor_eq_iff]
    constructor
    · push_cast; norm_num
    · push_cast; norm_num
  have := roundDouble_eq hlog hm
  rw [CHAMBER_VOLUME_uL, this]
  rw [show (-4 : ℤ) - 52 = -(56 : ℕ) by norm_num, zpow_neg, zpow_natCast]
  norm_num

theorem conversion_factor_eq : CONVERSION_FACTOR = 2000 := by
  have hq : DILUTION_FACTOR / CHAMBER_VOLUME_uL
      = 7205759403792793600 / 3602879701896397 := by
    rw [DILUTION_FACTOR, chamber_volume_eq]
    rw [div_div_eq_mul_div]
    norm_num
  have hlog : Int.log 2 (DILUTION_FACTOR / CHAMBER_VOLUME_uL) = 10 := by
    rw [hq]
    refine int_log_eq_of (by norm_num) ?_ ?_
    · show (2 : ℚ) ^ (10 : ℤ) ≤ _
      rw [show (10 : ℤ) = ((10 : ℕ) : ℤ) by norm_num, zpow_natCast]
      rw [le_div_iff₀ (by norm_num)]
      norm_num
    · show (7205759403792793600 : ℚ) / 3602879701896397 < (2 : ℚ) ^ ((10 : ℤ) + 1)
      rw [show (10 : ℤ) + 1 = ((11 : ℕ) : ℤ) by norm_num, zpow_natCast]
      rw [div_lt_iff₀ (by norm_num)]
      norm_num
  have hm : round ((DILUTION_FACTOR / CHAMBER_VOLUME_uL) * 2 ^ ((52 : ℤ) - 10))
      = 8796093022208000 := by
    rw [hq, show (52 : ℤ) - 10 = ((42 : ℕ) : ℤ) by norm_num, zpow_natCast, round_eq]
    rw [Int.floor_eq_iff]
    constructor
    · push_cast
      rw [div_mul_eq_mul_div, ← sub_le_iff_le_add, le_div_iff₀ (by norm_num)]
      norm_num
    · push_cast
      rw [div_mul_eq_mul_div, ← lt_sub_iff_add_lt, div_lt_iff₀ (by norm_num)]
      norm_num
  have := roundDouble_eq hlog hm
  rw [CONVERSION_FACTOR, this]
  rw [show (10 : ℤ) - 52 = -(42 : ℕ) by norm_num, zpow_neg, zpow_natCast]
  norm_num

theorem pyInt_conversion_factor : pyInt CONVERSION_FACTOR = 2000 := by
  rw [conversion_factor_eq, pyInt_of_nonneg (by norm_num)]
  norm_num

theorem fl_001_eq : FL_001 = 5764607523034235 / 2 ^ 59 := by
  have hlog : Int.log 2 ((1 : ℚ) / 100) = -7 := by
    refine int_log_eq_of (by norm_num) ?_ ?_
    · show (2 : ℚ) ^ (-7 : ℤ) ≤ 1 / 100
      rw [show (-7 : ℤ) = -(7 : ℕ) by norm_num, zpow_neg, zpow_natCast]
      norm_num
    · show (1 : ℚ) / 100 < (2 : ℚ) ^ ((-7 : ℤ) + 1)
      rw [show (-7 : ℤ) + 1 = -(6 : ℕ) by norm_num, zpow_neg, zpow_natCast]
      norm_num
  have hm : round (((1 : ℚ) / 100) * 2 ^ ((52 : ℤ) - (-7))) = 5764607523034235 := by
    rw [show (52 : ℤ) - (-7) = (59 : ℕ) by norm_num, zpow_natCast, round_eq]
    rw [Int.floor_eq_iff]
    constructor
    · push_cast; norm_num
    · push_cast; norm_num
  have := roundDouble_eq hlog hm
  rw [FL_001, this]
  rw [show (-7 : ℤ) - 52 = -(59 : ℕ) by norm_num, zpow_neg, zpow_natCast]
  norm_num

/-- Core float fact for the WBC estimate of `gsp.py`: for every count the
detector can produce (bounded far above any image size by `2 ^ 50`),
`int(n * 0.01)` computed in binary64 equals the integer division `n / 100`. -/
theorem wbc_trunc_eq_div (n : ℕ) (hn : n ≤ 2 ^ 50) :
    pyInt (roundDouble ((n : ℚ) * FL_001)) = ((n / 100 : ℕ) : ℤ) := by
  rcases Nat.eq_zero_or_pos n with h0 | hpos
  · subst h0
    have hz : ((0 : ℕ) : ℚ) * FL_001 = 0 := by norm_num
    rw [hz]
    have hr0 : roundDouble 0 = 0 := by
      unfold roundDouble
      simp
    rw [hr0, pyInt_of_nonneg le_rfl]
    norm_num
  · set q := n / 100 with hqdef
    set r := n % 100 with hrdef
    have hdm := Nat.div_add_mod n 100
    have hnqr : n = 100 * q + r := by omega
    have hr99 : r ≤ 99 := by omega
    set p : ℚ := (n : ℚ) * FL_001 with hpdef
    have hC : FL_001 = 5764607523034235 / 2 ^ 59 := fl_001_eq
    have hCpos : (0 : ℚ) < FL_001 := by rw [hC]; norm_num
    have hnpos : (0 : ℚ) < (n : ℚ) := by exact_mod_cast hpos
    have hppos : 0 < p := mul_pos hnpos hCpos
    have hq44 : (q : ℚ) ≤ 2 ^ 44 := by
      have h1 : q ≤ 2 ^ 50 / 100 := Nat.div_le_div_right hn
      have h2 : q ≤ 2 ^ 44 := by omega
      exact_mod_cast h2
    have hrQ : (r : ℚ) ≤ 99 := by exact_mod_cast hr99
    have hq0 : (0 : ℚ) ≤ (q : ℚ) := by positivity
    have hr0Q : (0 : ℚ) ≤ (r : ℚ) := by positivity
    have hnQ : (n : ℚ) = 100 * q + r := by exact_mod_cast hnqr
    have hql : (q : ℚ) ≤ p := by
      have h1 : (q : ℚ) * 100 ≤ (n : ℚ) := by
        have := Nat.div_mul_le_self n 100
        exact_mod_cast this
      have h3 : (n : ℚ) * (1 / 100) ≤ (n : ℚ) * FL_001 := by
        refine mul_le_mul_of_nonneg_left ?_ (le_of_lt hnpos)
        rw [hC]
        norm_num
      rw [hpdef]
      linarith
    have hub : p < (q : ℚ) + 199 / 200 := by
      rw [hpdef, hnQ, hC]
      nlinarith [hq44, hrQ, hq0, hr0Q]
    have hqp1 : p < (q : ℚ) + 1 := lt_of_lt_of_le hub (by linarith)
    have hp52 : p ≤ (2 : ℚ) ^ (44 : ℕ) + 1 := by
      have h44 : (2 : ℚ) ^ 44 + 1 ≤ 2 ^ (44 : ℕ) + 1 := le_rfl
      linarith
    have helog : Int.log 2 p ≤ 52 := by
      have h53 : p < ((2 : ℕ) : ℚ) ^ (53 : ℤ) := by
        have hc : ((2 : ℕ) : ℚ) = 2 := by norm_num
        rw [hc, show ((53 : ℤ) = ((53 : ℕ) : ℤ)) by norm_num, zpow_natCast]
        have : (2 : ℚ) ^ (44 : ℕ) + 1 < 2 ^ (53 : ℕ) := by norm_num
        linarith
      have := (Int.lt_zpow_iff_log_lt (by norm_num) hppos).1 h53
      omega
    have hlow : (q : ℚ) ≤ roundDouble p := nat_le_roundDouble helog hql
    have hhigh : roundDouble p < (q : ℚ) + 1 := by
      have habs := abs_le.1 (abs_roundDouble_sub_le hppos)
      have hzc : (2 : ℚ) ^ (-(52 : ℤ)) = 1 / 4503599627370496 := by
        rw [zpow_neg, show ((52 : ℤ) = ((52 : ℕ) : ℤ)) by norm_num, zpow_natCast]
        norm_num
      have h1 : roundDouble p - p ≤ p * (1 / 4503599627370496) := by
        have := habs.2
        rwa [hzc] at this
      linarith
    have hfloor : ⌊roundDouble p⌋ = (q : ℤ) := by
      rw [Int.floor_eq_iff]
      constructor
      · exact_mod_cast hlow
      · push_cast
        linarith
    have h0le : (0 : ℚ) ≤ roundDouble p := le_trans hq0 hlow
    rw [pyInt_of_nonneg h0le, hfloor]

/-! ## Shared lemmas about the embedded operations -/

theorem rbc_per_uL_of_eq (n : ℕ) : rbc_per_uL_of n = (n : ℤ) * 2000 := by
  rw [rbc_per_uL_of, pyInt_conversion_factor]

/-- The value `pyMaxAux key best ds` is, within `best :: ds`, the first element
attaining the maximum of `key`: everything before it is strictly smaller,
everything after it is no larger. -/
theorem pyMaxAux_first_max (key : Contour → ℚ) :
    ∀ (ds : List Contour) (best : Contour),
      ∃ l1 l2, best :: ds = l1 ++ pyMaxAux key best ds :: l2 ∧
        (∀ d ∈ l1, key d < key (pyMaxAux key best ds)) ∧
        (∀ d ∈ l2, key d ≤ key (pyMaxAux key best ds)) := by
  intro ds
  induction ds with
  | nil =>
    intro best
    exact ⟨[], [], rfl, by simp, by simp⟩
  | cons c cs ih =>
    intro best
    by_cases hlt : key best < key c
    · have heq : pyMaxAux key best (c :: cs) = pyMaxAux key c cs := by
        simp only [pyMaxAux, if_pos hlt]
      obtain ⟨l1, l2, hsplit, hl1, hl2⟩ := ih c
      have hcle : key c ≤ key (pyMaxAux key c cs) := by
        cases l1 with
        | nil =>
          simp only [List.nil_append, List.cons.injEq] at hsplit
          rw [← hsplit.1]
        | cons a l1' =>
          simp only [List.cons_append, List.cons.injEq] at hsplit
          have hmem : c ∈ a :: l1' := by
            rw [hsplit.1]
            exact List.mem_cons_self a l1'
          exact le_of_lt (hl1 c hmem)
      refine ⟨best :: l1, l2, ?_, ?_, ?_⟩
      · rw [heq, List.cons_append, ← hsplit]
      · intro d hd
        rw [heq]
        rcases List.mem_cons.1 hd with h | h
        · subst h
          exact lt_of_lt_of_le hlt hcle
        · exact hl1 d h
      · intro d hd
        rw [heq]
        exact hl2 d hd
    · have heq : pyMaxAux key best (c :: cs) = pyMaxAux key best cs := by
        simp only [pyMaxAux, if_neg hlt]
      have hcle : key c ≤ key best := le_of_not_lt hlt
      obtain ⟨l1, l2, hsplit, hl1, hl2⟩ := ih best
      cases l1 with
      | nil =>
        simp only [List.nil_append, List.cons.injEq] at hsplit
        refine ⟨[], c :: l2, ?_, by simp, ?_⟩
        · rw [heq, ← hsplit.1, ← hsplit.2]
          rfl
        · intro d hd
          rw [heq]
          rcases List.mem_cons.1 hd with h | h
          · subst h
            rw [← hsplit.1]
            exact hcle
          · exact hl2 d h
      | cons a l1' =>
        simp only [List.cons_append, List.cons.injEq] at hsplit
        obtain ⟨hba, hcs⟩ := hsplit
        have hbr : key best < key (pyMaxAux key best cs) := by
          refine hl1 best ?_
          rw [← hba]
          exact List.mem_cons_self best l1'
        refine ⟨best :: c :: l1', l2, ?_, ?_, ?_⟩
        · rw [heq]
          simp only [List.cons_append]
          rw [← hcs]
        · intro d hd
          rw [heq]
          rcases List.mem_cons.1 hd with h | h
          · subst h
            exact hbr
          · rcases List.mem_cons.1 h with h2 | h2
            · subst h2
              exact lt_of_le_of_lt hcle hbr
            · exact hl1 d (List.mem_cons_of_mem a h2)
        · intro d hd
          rw [heq]
          exact hl2 d hd

/-- Applied to a nonempty list, `pyMax` returns the first-encountered maximum. -/
theorem pyMax_first_max (key : Contour → ℚ) (cs : List Contour)
    (h : cs ≠ []) :
    ∃ c l1 l2, pyMax key cs = .ok c ∧ cs = l1 ++ c :: l2 ∧
      (∀ d ∈ l1, key d < key c) ∧ (∀ d ∈ l2, key d ≤ key c) := by
  cases cs with
  | nil => exact absurd rfl h
  | cons c0 rest =>
    obtain ⟨l1, l2, hsplit, hl1, hl2⟩ := pyMaxAux_first_max key rest c0
    exact ⟨pyMaxAux key c0 rest, l1, l2, rfl, hsplit, hl1, hl2⟩

/-- Fold-map fusion for the annotation loop: drawing the shift of each
contour is the same as shifting all contours first and then drawing. -/
theorem foldlM_draw_shifted (cv : CV) (x y : ℤ) :
    ∀ (l : List Contour) (b : Img),
      (l.map (fun cnt => shiftContour cnt x y)).foldlM cv.drawContours b
        = l.foldlM (fun acc cnt => cv.drawContours acc (shiftContour cnt x y)) b := by
  intro l
  induction l with
  | nil =>
    intro b
    rfl
  | cons c cs ih =>
    intro b
    simp only [List.map_cons, List.foldlM_cons]
    cases hd : cv.drawContours b (shiftContour c x y) with
    | error e => rfl
    | ok b2 => exact ih b2

/-! ## The claims -/

/-- C1: For every non-negative raw blob count `n`, the concentration equals
`n` multiplied by the integer-truncated conversion factor
`int(DILUTION_FACTOR / CHAMBER_VOLUME_uL)`; with the fixed constants the
factor is 2000, so `rbc_per_uL = n * 2000`. -/
theorem claim_C1_conversion_factor :
    pyInt CONVERSION_FACTOR = 2000 ∧
    ∀ n : ℕ, rbc_per_uL_of n = (n : ℤ) * 2000 :=
  ⟨pyInt_conversion_factor, rbc_per_uL_of_eq⟩

/-- C2: A concentration produced by the estimator is classified LOW exactly
when it is below 4,000,000, HIGH exactly when above 6,000,000 and NORMAL
otherwise; the boundary values 4,000,000 (raw count 2000) and 6,000,000
(raw count 3000) are NORMAL, and raw count 0 is LOW. -/
theorem claim_C2_classification :
    (∀ n : ℕ,
      (interpret (rbc_per_uL_of n) = "LOW RBC COUNT (Anemia)"
        ↔ rbc_per_uL_of n < 4000000) ∧
      (interpret (rbc_per_uL_of n) = "HIGH RBC COUNT (Polycythemia)"
        ↔ 6000000 < rbc_per_uL_of n) ∧
      (interpret (rbc_per_uL_of n) = "NORMAL RBC COUNT"
        ↔ (4000000 ≤ rbc_per_uL_of n ∧ rbc_per_uL_of n ≤ 6000000))) ∧
    interpret (rbc_per_uL_of 2000) = "NORMAL RBC COUNT" ∧
    interpret (rbc_per_uL_of 3000) = "NORMAL RBC COUNT" ∧
    interpret (rbc_per_uL_of 0) = "LOW RBC COUNT (Anemia)" := by
  have hLN : ("LOW RBC COUNT (Anemia)" : String) ≠ "NORMAL RBC COUNT" := by decide
  have hHN : ("HIGH RBC COUNT (Polycythemia)" : String) ≠ "NORMAL RBC COUNT" := by decide
  have hLH : ("LOW RBC COUNT (Anemia)" : String) ≠ "HIGH RBC COUNT (Polycythemia)" := by
    decide
  have key : ∀ c : ℤ,
      (interpret c = "LOW RBC COUNT (Anemia)" ↔ c < 4000000) ∧
      (interpret c = "HIGH RBC COUNT (Polycythemia)" ↔ 6000000 < c) ∧
      (interpret c = "NORMAL RBC COUNT" ↔ (4000000 ≤ c ∧ c ≤ 6000000)) := by
    intro c
    unfold interpret LOW_THRESHOLD HIGH_THRESHOLD
    split_ifs with h1 h2
    · exact ⟨iff_of_true rfl h1, iff_of_false hLH (by omega),
        iff_of_false hLN (by omega)⟩
    · exact ⟨iff_of_false (Ne.symm hLH) (by omega), iff_of_true rfl h2,
        iff_of_false hHN (by omega)⟩
    · exact ⟨iff_of_false (Ne.symm hLN) (by omega),
        iff_of_false (Ne.symm hHN) (by omega),
        iff_of_true rfl (by omega)⟩
  refine ⟨fun n => key _, ?_, ?_, ?_⟩
  · have h2000 : rbc_per_uL_of 2000 = 4000000 := by
      rw [rbc_per_uL_of_eq]
      norm_num
    rw [h2000]
    exact (key 4000000).2.2.mpr (by norm_num)
  · have h3000 : rbc_per_uL_of 3000 = 6000000 := by
      rw [rbc_per_uL_of_eq]
      norm_num
    rw [h3000]
    exact (key 6000000).2.2.mpr (by norm_num)
  · have h0 : rbc_per_uL_of 0 = 0 := by
      rw [rbc_per_uL_of_eq]
      norm_num
    rw [h0]
    exact (key 0).1.mpr (by norm_num)

/-- C8: the analysis is deterministic — two runs of the embedded pipeline on
the same input agree on raw count, concentration and interpretation. -/
theorem claim_C8_deterministic :
    ∀ (cv : CV) (image_path : String),
      Except.map (fun r : RBCResult => (r.raw_count, r.rbc_per_uL, r.interpretation))
          (count_rbc_with_grid cv image_path)
        = Except.map (fun r : RBCResult => (r.raw_count, r.rbc_per_uL, r.interpretation))
          (count_rbc_with_grid cv image_path) :=
  fun _ _ => rfl

/-- C5: if the image cannot be decoded (`cv2.imread` yields `None`), the
invocation fails with a propagated error and never returns a result (in
particular never a zero count). -/
theorem claim_C5_decode_failure :
    ∀ (cv : CV) (image_path : String), cv.imread image_path = none →
      count_rbc_with_grid cv image_path
          = .error "cvtColor: src is not a numpy array" ∧
      ∀ r : RBCResult, count_rbc_with_grid cv image_path ≠ .ok r := by
  intro cv p h
  have hns : numericStages cv p = .error "cvtColor: src is not a numpy array" := by
    unfold numericStages
    rw [h]
  have hc : count_rbc_with_grid cv p = .error "cvtColor: src is not a numpy array" := by
    unfold count_rbc_with_grid
    rw [hns]
  refine ⟨hc, fun r hr => ?_⟩
  rw [hc] at hr
  exact Except.noConfusion hr

/-- C6: the Annotator draws on a fresh copy — whatever the outcome, the
post-invocation content of the caller's image buffer is the unchanged
input — and the drawn contours are exactly the accepted contours translated
by the ROI offset `(x, y)` before drawing. -/
theorem claim_C6_annotator_copy_and_shift :
    ∀ (cv : CV) (image : Img) (x y w h : ℤ) (filtered : List Contour),
      Except.map Prod.snd (annotate cv image x y w h filtered)
        = Except.map (fun _ => image) (annotate cv image x y w h filtered) ∧
      annotate cv image x y w h filtered
        = Except.map (fun out => (out, image))
            ((filtered.map (fun cnt => shiftContour cnt x y)).foldlM cv.drawContours
              (cv.rectangle image (x, y) (x + w, y + h))) := by
  intro cv image x y w h filtered
  constructor
  · simp only [annotate]
    cases hF : filtered.foldlM
        (fun acc cnt => cv.drawContours acc (shiftContour cnt x y))
        (cv.rectangle image (x, y) (x + w, y + h)) with
    | error e => rfl
    | ok out => rfl
  · simp only [annotate]
    rw [foldlM_draw_shifted]

/-- C4: the Blob Filter retains exactly the connected components whose area
exceeds the minimum-area threshold (components with area `≤ min_area` are
all rejected), the raw cell count is the number of retained components, and
an all-background mask (no components) yields an empty sequence and
count 0. -/
theorem claim_C4_blob_filter :
    ∀ (cv : CV),
      (∀ (min_area : ℚ) (mask : Gray),
        (∀ c, c ∈ filterContours cv.contourArea min_area (cv.findContours mask) ↔
          c ∈ cv.findContours mask ∧ min_area < cv.contourArea c) ∧
        (∀ c ∈ cv.findContours mask, cv.contourArea c ≤ min_area →
          c ∉ filterContours cv.contourArea min_area (cv.findContours mask)) ∧
        (cv.findContours mask = [] →
          filterContours cv.contourArea min_area (cv.findContours mask) = [] ∧
          (filterContours cv.contourArea min_area (cv.findContours mask)).length
            = 0)) ∧
      (∀ (p : String) (o : NumericOut), numericStages cv p = .ok o →
        o.raw_count = o.filtered.length) := by
  intro cv
  constructor
  · intro min_area mask
    have hmem : ∀ c, c ∈ filterContours cv.contourArea min_area (cv.findContours mask) ↔
        c ∈ cv.findContours mask ∧ min_area < cv.contourArea c := by
      intro c
      simp [filterContours, List.mem_filter]
    refine ⟨hmem, ?_, ?_⟩
    · intro c _ hle hin
      have := ((hmem c).1 hin).2
      linarith
    · intro hempty
      rw [hempty]
      exact ⟨rfl, rfl⟩
  · intro p o hok
    simp only [numericStages] at hok
    cases him : cv.imread p with
    | none =>
      rw [him] at hok
      exact Except.noConfusion hok
    | some image =>
      simp only [him] at hok
      cases hmax : pyMax cv.contourArea
          (cv.findContours (gridMaskOf cv (cv.cvtColor image)
            (cv.houghLinesP (cv.canny (cv.gaussianBlur (cv.cvtColor image)))))) with
      | error e =>
        rw [hmax] at hok
        exact Except.noConfusion hok
      | ok largest =>
        simp only [hmax, Except.ok.injEq] at hok
        rw [← hok]

/-- C9: when the grid mask has components, the Region Locator returns the
bounding rectangle of the component with the largest area, ties broken by
first-encountered order: everything before the selected component is
strictly smaller, everything after is no larger. -/
theorem claim_C9_largest_contour :
    ∀ (cv : CV) (contours : List Contour), contours ≠ [] →
      ∃ c l1 l2, pyMax cv.contourArea contours = .ok c ∧
        contours = l1 ++ c :: l2 ∧
        (∀ d ∈ l1, cv.contourArea d < cv.contourArea c) ∧
        (∀ d ∈ l2, cv.contourArea d ≤ cv.contourArea c) ∧
        (∀ d ∈ contours, cv.contourArea d ≤ cv.contourArea c) ∧
        largestContourRect cv contours = .ok (cv.boundingRect c) := by
  intro cv cs h
  obtain ⟨c, l1, l2, hok, hsplit, hl1, hl2⟩ := pyMax_first_max cv.contourArea cs h
  refine ⟨c, l1, l2, hok, hsplit, hl1, hl2, ?_, ?_⟩
  · intro d hd
    rw [hsplit] at hd
    rcases List.mem_append.1 hd with h1 | h2
    · exact le_of_lt (hl1 d h1)
    · rcases List.mem_cons.1 h2 with h3 | h4
      · subst h3
        exact le_rfl
      · exact hl2 d h4
  · unfold largestContourRect
    rw [hok]
    rfl

/-- C3 (amended): when the line detector finds no lines, the grid mask is
all zeros, `findContours` yields no components, and `max()` over the empty
component list raises: the invocation fails with an error instead of
falling back to a full-image ROI. -/
theorem claim_C3_no_lines_raises :
    ∀ (cv : CV) (p : String) (image : Img), cv.imread p = some image →
      cv.houghLinesP (cv.canny (cv.gaussianBlur (cv.cvtColor image))) = none →
      cv.findContours (zerosLike (cv.cvtColor image)) = [] →
      count_rbc_with_grid cv p = .error "max() arg is an empty sequence" := by
  intro cv p image him hl hf
  have hns : numericStages cv p = .error "max() arg is an empty sequence" := by
    simp only [numericStages, him, hl, gridMaskOf, hf, pyMax]
  unfold count_rbc_with_grid
  rw [hns]

/-- C7 (amended): a failure in the annotation drawing block propagates out
of the invocation (there is no try/except around it), discarding the
already computed numeric results. -/
theorem claim_C7_draw_failure_aborts :
    ∀ (cv : CV) (p : String) (o : NumericOut) (e : String),
      numericStages cv p = .ok o →
      annotate cv o.image o.x o.y o.w o.h o.filtered = .error e →
      count_rbc_with_grid cv p = .error e := by
  intro cv p o e h1 h2
  simp only [count_rbc_with_grid, h1, h2]

/-- C10: the WBC estimate of the circle-detection analyzer is derived purely
from the detected RBC circle count as `int(rbc_count * 0.01)`, which equals
`rbc_count / 100` rounded toward zero for every count the detector can
produce; it is 0 when no circles are detected. -/
theorem claim_C10_wbc_estimate :
    ∀ (cv : GspCV) (p : String) (res : GspResult),
      gsp_analyze cv p = .ok res → res.rbc_count ≤ 2 ^ 50 →
      res.wbc_estimate = wbc_estimate_of res.rbc_count ∧
      res.wbc_estimate = ((res.rbc_count / 100 : ℕ) : ℤ) ∧
      (res.rbc_count = 0 → res.wbc_estimate = 0) ∧
      ∀ image, cv.imread p = some image →
        cv.houghCircles (cv.medianBlur (cv.cvtColor image)) = none →
        res.rbc_count = 0 := by
  intro cv p res hok hb
  have hw : res.wbc_estimate = wbc_estimate_of res.rbc_count := by
    simp only [gsp_analyze] at hok
    cases him : cv.imread p with
    | none =>
      rw [him] at hok
      exact Except.noConfusion hok
    | some image =>
      simp only [him] at hok
      cases hcir : cv.houghCircles (cv.medianBlur (cv.cvtColor image)) with
      | none =>
        simp only [hcir, Except.ok.injEq] at hok
        rw [← hok]
      | some cs =>
        simp only [hcir, Except.ok.injEq] at hok
        rw [← hok]
  have hzero : wbc_estimate_of 0 = 0 := by
    have h := wbc_trunc_eq_div 0 (by norm_num)
    simpa [wbc_estimate_of] using h
  refine ⟨hw, ?_, ?_, ?_⟩
  · rw [hw, wbc_estimate_of]
    exact wbc_trunc_eq_div res.rbc_count hb
  · intro h0
    rw [hw, h0]
    exact hzero
  · intro image him hcir
    simp only [gsp_analyze, him, hcir, Except.ok.injEq] at hok
    rw [← hok]

/-- C3 counterexample: with no lines found the pipeline does not fall back
to a full-image ROI — it raises from `max()` and returns no result. -/
theorem claim_C3_counterexample :
    count_rbc_with_grid cvNoLines "no_grid.png"
        = .error "max() arg is an empty sequence" ∧
    ∀ r : RBCResult, count_rbc_with_grid cvNoLines "no_grid.png" ≠ .ok r := by
  have hx : count_rbc_with_grid cvNoLines "no_grid.png"
      = Except.error "max() arg is an empty sequence" := rfl
  refine ⟨hx, fun r hr => ?_⟩
  rw [hx] at hr
  exact Except.noConfusion hr

theorem claim_C3_witness :
    count_rbc_with_grid cvNoLines "uniform.png"
      = .error "max() arg is an empty sequence" :=
  claim_C3_no_lines_raises cvNoLines "uniform.png" img0 rfl rfl rfl

/-- C7 counterexample: the numeric stages succeed, yet a drawing failure
makes the whole invocation return an error, so the raw count, concentration
and interpretation are not returned. -/
theorem claim_C7_counterexample :
    (numericStages cvDrawFail "smear.jpg").toOption.isSome = true ∧
    count_rbc_with_grid cvDrawFail "smear.jpg"
        = .error "drawContours: bad contour" ∧
    ∀ r : RBCResult, count_rbc_with_grid cvDrawFail "smear.jpg" ≠ .ok r := by
  have hx : count_rbc_with_grid cvDrawFail "smear.jpg"
      = Except.error "drawContours: bad contour" := rfl
  refine ⟨rfl, hx, fun r hr => ?_⟩
  rw [hx] at hr
  exact Except.noConfusion hr

theorem claim_C7_witness :
    count_rbc_with_grid cvDrawFail "wit.jpg" = .error "drawContours: bad contour" :=
  claim_C7_draw_failure_aborts cvDrawFail "wit.jpg" numOutDF
    "drawContours: bad contour" rfl rfl

theorem claim_C5_witness :
    count_rbc_with_grid cvDecodeFail "corrupt.bin"
        = .error "cvtColor: src is not a numpy array" ∧
    ∀ r : RBCResult, count_rbc_with_grid cvDecodeFail "corrupt.bin" ≠ .ok r :=
  claim_C5_decode_failure cvDecodeFail "corrupt.bin" rfl

theorem claim_C4_witness :
    cntB ∈ filterContours cvTwoBlobs.contourArea (50 : ℚ)
        (cvTwoBlobs.findContours [[0]]) ∧
    cntA ∉ filterContours cvTwoBlobs.contourArea (50 : ℚ)
        (cvTwoBlobs.findContours [[0]]) ∧
    (filterContours cvTwoBlobs.contourArea (50 : ℚ)
        (cvTwoBlobs.findContours [[0]])).length = 1 := by
  have h := (claim_C4_blob_filter cvTwoBlobs).1 50 [[0]]
  refine ⟨?_, ?_, by decide⟩
  · exact ((h.1 cntB).2 ⟨by decide, by decide⟩)
  · exact h.2.1 cntA (by decide) (by decide)

theorem claim_C9_witness :
    ([cntA, cntB, cntC] : List Contour) ≠ [] ∧
    pyMax cvTie.contourArea [cntA, cntB, cntC] = .ok cntB ∧
    (∃ c l1 l2, pyMax cvTie.contourArea [cntA, cntB, cntC] = .ok c ∧
      [cntA, cntB, cntC] = l1 ++ c :: l2 ∧
      (∀ d ∈ l1, cvTie.contourArea d < cvTie.contourArea c) ∧
      (∀ d ∈ l2, cvTie.contourArea d ≤ cvTie.contourArea c) ∧
      (∀ d ∈ [cntA, cntB, cntC], cvTie.contourArea d ≤ cvTie.contourArea c) ∧
      largestContourRect cvTie [cntA, cntB, cntC] = .ok (cvTie.boundingRect c)) :=
  ⟨by decide, by rfl,
    claim_C9_largest_contour cvTie [cntA, cntB, cntC] (by decide)⟩

set_option maxRecDepth 8000 in

theorem claim_C10_witness :
    gsp_analyze gspCirc "blood.jpg" = .ok gspRes150 ∧
    gspRes150.wbc_estimate = 1 := by
  have hok : gsp_analyze gspCirc "blood.jpg" = .ok gspRes150 := rfl
  refine ⟨hok, ?_⟩
  have h := claim_C10_wbc_estimate gspCirc "blood.jpg" gspRes150 hok (by decide)
  rw [h.2.1]
  decide

end RBC
